import Mathlib

/-!
Verification development for the xcube-stac ARDC assembly pipeline.

The repository's Python implementation of the pipeline (Grid Resolver,
Tile Locator, Zone Grouper, Mosaicker, Reprojector/Resampler, Cube
Stacker) is not present in the source tree; only its documentation
(README.md, CHANGES.md) and configuration are.  The definitions below
are therefore modelled from the specification's component contracts
(spec.md sections 3, 4, 6, 7) and, for the data-store default, from
README.md.  Coordinates and resolutions are modelled with rationals;
a possibly-NaN metadata coordinate is modelled as an `Option` rational
with `none` standing for NaN; pixel values are `Option Int` with `none`
standing for nodata.
-/

namespace XcubeStac

/-- Coordinate reference system, identified by an EPSG-style numeric code,
together with whether it is a geographic (degree-unit) CRS. -/
structure CRS where
  code : Nat
  isGeographic : Bool
deriving DecidableEq, Repr

/-- A rectangular bounding box with finite rational coordinates. -/
structure BBox where
  xmin : ℚ
  ymin : ℚ
  xmax : ℚ
  ymax : ℚ
deriving DecidableEq, Repr

/-- Error taxonomy of the pipeline (spec.md section 7). -/
inductive PipelineError where
  | configurationError
  | catalogDataError
  | dataConsistencyError
deriving DecidableEq, Repr

/-- Modelled from the spec: the Canonical Grid — the single target grid
(CRS, affine transform given by origin and resolution, width, height)
that the entire output cube shares (spec.md section 3). -/
structure CanonicalGrid where
  crs : CRS
  originX : ℚ
  originY : ℚ
  res : ℚ
  width : Int
  height : Int
deriving DecidableEq, Repr

/-- The affine transform of a grid: maps a pixel index `(i, j)` to CRS
coordinates.  Pixel `(0, 0)` maps to the grid origin. -/
def CanonicalGrid.pixelToCrs (g : CanonicalGrid) (i j : Int) : ℚ × ℚ :=
  (g.originX + (i : ℚ) * g.res, g.originY + (j : ℚ) * g.res)

/-- Unit in which a requested spatial resolution is expressed. -/
inductive ResUnit where
  | degree
  | meter
deriving DecidableEq, Repr

/-- A resolution unit is consistent with a CRS when degree resolutions go
with geographic CRSs and meter resolutions with projected ones
(spec.md section 4.1). -/
def resUnitConsistent (crs : CRS) (u : ResUnit) : Bool :=
  match u with
  | .degree => crs.isGeographic
  | .meter => !crs.isGeographic

/-- Modelled from the spec: a Grid Resolver request (spec.md section 4.1).
Mode (a) gives an explicit bbox, CRS and spatial resolution; mode (b)
gives a point and a `bbox_width` in meters for the single-tile-anchored
grid. -/
inductive GridRequest where
  | bboxMode (bbox : BBox) (crs : CRS) (spatial_res : ℚ) (unit : ResUnit)
  | pointMode (px py : ℚ) (bbox_width : ℚ)
deriving DecidableEq, Repr

/-- Modelled from the spec: request validation performed at
request-construction time, before any I/O (spec.md sections 4.1 and 7).
Single-tile mode is restricted to `bbox_width < 10000` meters; bbox mode
requires a nondegenerate bbox, a positive resolution and a resolution
unit matching the CRS. -/
def validateRequest (req : GridRequest) : Except PipelineError GridRequest :=
  match req with
  | .bboxMode bbox crs spatial_res unit =>
      if bbox.xmin < bbox.xmax ∧ bbox.ymin < bbox.ymax ∧ 0 < spatial_res ∧
          resUnitConsistent crs unit = true then
        .ok (.bboxMode bbox crs spatial_res unit)
      else
        .error .configurationError
  | .pointMode px py bbox_width =>
      if bbox_width < 10000 then
        .ok (.pointMode px py bbox_width)
      else
        .error .configurationError

/-- The integer ceiling of `(a - b) / r`, computed on raw numerators and
denominators with integer arithmetic only (for `0 < r` this equals
`Int.ceil ((a - b) / r)`, proved below). -/
def ceilSubDiv (a b r : ℚ) : Int :=
  let n : Int := (a.num * (b.den : Int) - b.num * (a.den : Int)) * (r.den : Int)
  let d : Int := (a.den : Int) * (b.den : Int) * r.num
  Int.neg ((Int.neg n) / d)

/-- Modelled from the spec: the explicit-bbox branch of `resolve_grid`.
The affine transform maps pixel `(0, 0)` to the bbox origin, and width
and height are the smallest integer pixel counts covering the bbox at
the given resolution (spec.md sections 4.1 and 8). -/
def resolveGridBBox (bbox : BBox) (crs : CRS) (spatial_res : ℚ) : CanonicalGrid :=
  { crs := crs
    originX := bbox.xmin
    originY := bbox.ymin
    res := spatial_res
    width := ceilSubDiv bbox.xmax bbox.xmin spatial_res
    height := ceilSubDiv bbox.ymax bbox.ymin spatial_res }

/-- A STAC item's metadata bounding box in lon/lat degrees; a `none`
coordinate stands for NaN in the catalog metadata. -/
structure MetaBBox where
  xmin : Option ℚ
  ymin : Option ℚ
  xmax : Option ℚ
  ymax : Option ℚ
deriving DecidableEq, Repr

/-- Modelled from the spec: a Tile — one observation of one collection
item (spec.md section 3): source href, native CRS zone, native grid
(extent, resolution, pixel offset within the zone frame), timestamp,
per-band raster data (`none` cells are nodata), the catalog metadata
bounding box, and attribute properties for query filters. -/
structure Tile where
  href : String
  crs : CRS
  bounds : BBox
  res : ℚ
  time : Int
  offI : Nat
  offJ : Nat
  bands : List (String × List (List (Option Int)))
  metaBBox : MetaBBox
  props : List (String × Int)
deriving DecidableEq, Repr

/-- Whether a tile's native extent covers a point given in the tile's
native CRS coordinates. -/
def coversPoint (t : Tile) (px py : ℚ) : Bool :=
  t.bounds.xmin ≤ px ∧ px ≤ t.bounds.xmax ∧ t.bounds.ymin ≤ py ∧ py ≤ t.bounds.ymax

/-- Modelled from the spec: the single-tile-anchored grid of mode (b)
(spec.md section 4.1): the bbox is derived by buffering the point by
`bbox_width` meters on each side and snapping to the native tile grid
and CRS of the tile covering that point. -/
def singleTileGrid (t : Tile) (px py bbox_width : ℚ) : CanonicalGrid :=
  { crs := t.crs
    originX := t.bounds.xmin + t.res * (Int.floor ((px - bbox_width - t.bounds.xmin) / t.res) : ℚ)
    originY := t.bounds.ymin + t.res * (Int.floor ((py - bbox_width - t.bounds.ymin) / t.res) : ℚ)
    res := t.res
    width := Int.ceil (2 * bbox_width / t.res)
    height := Int.ceil (2 * bbox_width / t.res) }

/-- Modelled from the spec: `resolve_grid` (spec.md section 4.1).
Validates the request first (at request-construction time, before any
catalog access), then computes the Canonical Grid: mode (a) from the
explicit bbox/CRS/resolution, mode (b) from the native grid of the tile
covering the requested point. -/
def resolve_grid (req : GridRequest) (tiles : List Tile) :
    Except PipelineError CanonicalGrid := do
  let req' ← validateRequest req
  match req' with
  | .bboxMode bbox crs spatial_res _ => .ok (resolveGridBBox bbox crs spatial_res)
  | .pointMode px py bbox_width =>
      match tiles.find? (fun t => coversPoint t px py) with
      | some t => .ok (singleTileGrid t px py bbox_width)
      | none => .error .catalogDataError

/-- Modelled from the spec: a Tile Locator query (spec.md sections 4.2
and 6): spatial bbox, time range and optional attribute-based query
filters. -/
structure Query where
  bbox : BBox
  timeStart : Int
  timeEnd : Int
  filters : List (String × Int)
deriving DecidableEq, Repr

/-- Validity filter on an item's metadata bounding box (spec.md section
4.2): all four coordinates finite (not NaN), positive area, and within
the dataset's known valid lon/lat extent. -/
def validMetaBBox : MetaBBox → Bool
  | ⟨some x0, some y0, some x1, some y1⟩ =>
      decide (x0 < x1 ∧ y0 < y1 ∧ -180 ≤ x0 ∧ x1 ≤ 180 ∧ -90 ≤ y0 ∧ y1 ≤ 90)
  | _ => false

/-- Whether an item's (finite) metadata bbox intersects the query bbox;
an item with any NaN coordinate never matches. -/
def intersectsQuery (q : Query) : MetaBBox → Bool
  | ⟨some x0, some y0, some x1, some y1⟩ =>
      decide (x0 ≤ q.bbox.xmax ∧ q.bbox.xmin ≤ x1 ∧ y0 ≤ q.bbox.ymax ∧ q.bbox.ymin ≤ y1)
  | _ => false

/-- Whether a tile's timestamp falls in the query's time range. -/
def inTimeRange (q : Query) (t : Tile) : Bool :=
  decide (q.timeStart ≤ t.time ∧ t.time ≤ q.timeEnd)

/-- Whether a tile's attribute properties satisfy every query filter. -/
def matchesFilters (q : Query) (t : Tile) : Bool :=
  q.filters.all (fun kv => t.props.lookup kv.1 = some kv.2)

/-- The full per-item predicate of the Tile Locator; every predicate is
applied before the tile is yielded. -/
def locatePred (q : Query) (t : Tile) : Bool :=
  validMetaBBox t.metaBBox && intersectsQuery q t.metaBBox &&
    inTimeRange q t && matchesFilters q t

/-- Modelled from the spec: `locate` (spec.md section 4.2) — produces the
ordered sequence of tiles matching the query, discarding items whose
metadata bounding box is degenerate or out of range before they are
yielded. -/
def locate (q : Query) (catalog : List Tile) : List Tile :=
  catalog.filter (locatePred q)

/-- A cache of already-evaluated lazy pipeline nodes, keyed by node id. -/
structure NodeCache (α : Type) where
  entries : List (Nat × α)

/-- A node cache is consistent with the pure node semantics when every
cached value equals the value the node computes. -/
def cacheConsistent {α : Type} (compute : Nat → α) (c : NodeCache α) : Prop :=
  ∀ p ∈ c.entries, p.2 = compute p.1

/-- Lookup of a node id in a cache. -/
def lookupNode {α : Type} (n : Nat) : List (Nat × α) → Option α
  | [] => none
  | (k, v) :: rest => if n = k then some v else lookupNode n rest

/-- Modelled from the spec: evaluation of a lazy pipeline node over a
read cache (spec.md section 5): the contract is idempotent re-reads —
evaluating the same lazy node twice must yield the same result, with no
hidden mutable caching keyed by read order. -/
def evalNode {α : Type} (compute : Nat → α) (n : Nat) (c : NodeCache α) :
    α × NodeCache α :=
  match lookupNode n c.entries with
  | some v => (v, c)
  | none => (compute n, ⟨(n, compute n) :: c.entries⟩)

/-- Raster dtype of a band. -/
inductive DType where
  | uint8
  | uint16
  | int16
  | int32
  | float32
  | float64
deriving DecidableEq, Repr

/-- Dtype promotion rule for nodata: integer dtypes are promoted to
float32 so that nodata can be represented; float dtypes are kept. -/
def promoteForNodata : DType → DType
  | .float32 => .float32
  | .float64 => .float64
  | _ => .float32

/-- The pixel a tile contributes at zone-frame pixel `(i, j)` for band
`b`: `none` (nodata) outside the tile's extent, for a missing band, or
where the tile itself stores nodata. -/
def tilePixel (t : Tile) (b : String) (i j : Nat) : Option Int :=
  if t.offI ≤ i ∧ t.offJ ≤ j then
    match t.bands.lookup b with
    | none => none
    | some rows =>
        match rows.get? (i - t.offI) with
        | none => none
        | some row => (row.get? (j - t.offJ)).join
  else none

/-- First non-nodata value in a list of pixel contributions. -/
def firstSome : List (Option Int) → Option Int
  | [] => none
  | some v :: _ => some v
  | none :: rest => firstSome rest

/-- Modelled from the spec: the Mosaicker's overlap policy (spec.md
section 4.4) — for each pixel, among contributing tiles, pick the value
of the first tile in catalog order that has a non-nodata value; nodata
propagates only if all contributors are nodata there. -/
def mosaicPixel (tiles : List Tile) (b : String) (i j : Nat) : Option Int :=
  firstSome (tiles.map (fun t => tilePixel t b i j))

/-- The composited raster of one band over a `w × h` zone frame. -/
def mosaicData (tiles : List Tile) (b : String) (w h : Nat) :
    List (List (Option Int)) :=
  (List.range h).map (fun i => (List.range w).map (fun j => mosaicPixel tiles b i j))

/-- Modelled from the spec: a Composited Frame (spec.md section 3) — one
band, one temporal-group key, one CRS zone, produced by mosaicking
overlapping tiles. -/
structure ZoneFrame where
  crs : CRS
  time : Int
  band : String
  dtype : DType
  data : List (List (Option Int))
deriving DecidableEq, Repr

/-- The native CRS zone of a zone group (all tiles of a group share it). -/
def zoneCrsOf : List Tile → CRS
  | [] => ⟨0, true⟩
  | t :: _ => t.crs

/-- Helper of `dedupTimes`: drops the keys already seen. -/
def dedupTimesAux : List Int → List Int → List Int
  | [], _ => []
  | t :: ts, seen =>
      if seen.any (fun x => decide (x = t)) then dedupTimesAux ts seen
      else t :: dedupTimesAux ts (t :: seen)

/-- The distinct temporal keys of a tile list, first occurrence first. -/
def dedupTimes (l : List Int) : List Int :=
  dedupTimesAux l []

/-- Modelled from the spec: `mosaic` (spec.md section 4.4) — groups a
zone group's tiles by temporal key and composites each group into one
frame per band over the zone frame's `w × h` pixel grid. -/
def mosaic (zg : List Tile) (b : String) (dt : DType) (w h : Nat) :
    List ZoneFrame :=
  (dedupTimes (zg.map Tile.time)).map (fun k =>
    { crs := zoneCrsOf zg
      time := k
      band := b
      dtype := dt
      data := mosaicData (zg.filter (fun t => decide (t.time = k))) b w h })

/-- A frame aligned to the Canonical Grid, as emitted by the
Reprojector/Resampler: carries the grid it sits on, the CRS/grid-mapping
variable name, the dimension names and the (possibly promoted) dtype. -/
structure AlignedFrame where
  grid : CanonicalGrid
  time : Int
  band : String
  crsVarName : String
  dims : List String
  dtype : DType
  data : List (List (Option Int))
deriving DecidableEq, Repr

/-- The single normalized name under which every output carries its
CRS/grid-mapping metadata. -/
def crs_var_name : String := "crs"

/-- Modelled from the spec: the pure-resampling branch of the
Reprojector/Resampler (frame's native CRS equals the canonical grid's
CRS): pixel-grid alignment only, no coordinate transform. -/
def resampleToGrid (f : ZoneFrame) (g : CanonicalGrid) : AlignedFrame :=
  { grid := g
    time := f.time
    band := f.band
    crsVarName := "crs"
    dims := ["y", "x"]
    dtype := promoteForNodata f.dtype
    data := f.data }

/-- Modelled from the spec: the full-reprojection branch (coordinate
transform plus resampling), delegated to the collaborating reprojection
engine, whose raw output names the grid-mapping variable differently. -/
def reprojectToGrid (f : ZoneFrame) (g : CanonicalGrid) : AlignedFrame :=
  { grid := g
    time := f.time
    band := f.band
    crsVarName := "spatial_ref"
    dims := ["y", "x"]
    dtype := promoteForNodata f.dtype
    data := f.data }

/-- Normalization of the CRS/grid-mapping variable naming, applied to
both branches so their outputs are structurally identical by
construction (spec.md section 4.5). -/
def normalizeCrsMeta (a : AlignedFrame) : AlignedFrame :=
  { a with crsVarName := crs_var_name }

/-- Modelled from the spec: `align` (spec.md section 4.5) — pure
resampling when the frame's native CRS equals the canonical grid's CRS,
full reprojection otherwise; both branches are normalized to identical
structure. -/
def align (f : ZoneFrame) (g : CanonicalGrid) : AlignedFrame :=
  if f.crs = g.crs then normalizeCrsMeta (resampleToGrid f g)
  else normalizeCrsMeta (reprojectToGrid f g)

/-- Whether a list of timestamps contains a duplicate key. -/
def hasDupTimes : List Int → Bool
  | [] => false
  | t :: ts => ts.any (fun x => decide (x = t)) || hasDupTimes ts

/-- Insertion of a frame into a time-sorted frame list. -/
def insertByTime (f : AlignedFrame) : List AlignedFrame → List AlignedFrame
  | [] => [f]
  | f' :: rest =>
      if f.time ≤ f'.time then f :: f' :: rest else f' :: insertByTime f rest

/-- Sorting of frames into ascending timestamp order. -/
def sortByTime : List AlignedFrame → List AlignedFrame
  | [] => []
  | f :: rest => insertByTime f (sortByTime rest)

/-- The final cube: the Canonical Grid plus the per-timestamp frames of
one band variable, in ascending time order. -/
structure Cube where
  grid : CanonicalGrid
  frames : List AlignedFrame
deriving DecidableEq, Repr

/-- The time axis of a cube. -/
def Cube.times (c : Cube) : List Int :=
  c.frames.map AlignedFrame.time

/-- Modelled from the spec: `stack` (spec.md section 4.6) — concatenates
the aligned frames of one band variable along time in strictly ascending
timestamp order; fails with `DataConsistencyError` on a grid mismatch
against the Canonical Grid or on a duplicate timestamp key. -/
def stack (frames : List AlignedFrame) (g : CanonicalGrid) :
    Except PipelineError Cube :=
  if frames.any (fun f => decide (f.grid ≠ g)) then .error .dataConsistencyError
  else if hasDupTimes (frames.map AlignedFrame.time) then .error .dataConsistencyError
  else .ok ⟨g, sortByTime frames⟩

/-- Helper of `zonesOf`: drops the zones already seen. -/
def zonesOfAux : List Tile → List CRS → List CRS
  | [], _ => []
  | t :: ts, seen =>
      if seen.any (fun z => decide (z = t.crs)) then zonesOfAux ts seen
      else t.crs :: zonesOfAux ts (t.crs :: seen)

/-- The distinct CRS zones of a located tile list, first occurrence
first (spec.md section 4.3: zone identity is derived from the tile's
native CRS, never from the requested output CRS). -/
def zonesOf (tiles : List Tile) : List CRS :=
  zonesOfAux tiles []

/-- Modelled from the spec: `group_by_zone` (spec.md section 4.3) — the
tiles of one zone, in located order. -/
def group_by_zone (tiles : List Tile) (z : CRS) : List Tile :=
  tiles.filter (fun t => decide (t.crs = z))

/-- Modelled from the spec: the whole ARDC pipeline for one band
variable (spec.md section 2, stages 1→2→3→4→5→6): resolve the Canonical
Grid once from the request, locate the tiles, group them by native CRS
zone, mosaic each zone by temporal key, align every composited frame to
the (unchanged) Canonical Grid, and stack along time. -/
def run_pipeline (req : GridRequest) (q : Query) (catalog : List Tile)
    (b : String) (dt : DType) : Except PipelineError Cube := do
  let g ← resolve_grid req catalog
  let located := locate q catalog
  let frames := (zonesOf located).flatMap (fun z =>
    mosaic (group_by_zone located z) b dt g.width.toNat g.height.toNat)
  stack (frames.map (fun f => align f g)) g

/-- Data-type argument of the data stores' `open_data`. -/
inductive DataTypeArg where
  | dataset
  | mldataset
deriving DecidableEq, Repr

/-- Modelled from the spec: the `stac-cdse` store's `open_data` on a
single-item data id (README.md, "Getting started"): the item is opened
as an `xr.Dataset` unless the optional `data_type` argument explicitly
selects the multi-resolution dataset. -/
def open_data_cdse (_dataId : String) (data_type : Option DataTypeArg) : DataTypeArg :=
  match data_type with
  | some dt => dt
  | none => .dataset

/-! Concrete sample data used to instantiate the theorems below. -/

/-- A sample Sentinel-2 tile in UTM zone 32N covering the point
`(10, 53.5)` of the single-tile-mode examples. -/
def tileW : Tile :=
  { href := "T32UNE"
    crs := ⟨32632, false⟩
    bounds := ⟨0, 0, 100000, 100000⟩
    res := 10
    time := 0
    offI := 0
    offJ := 0
    bands := [("B02", [[some 1]])]
    metaBBox := ⟨some 9, some 53, some 11, some 54⟩
    props := [] }

/-- A sample query over the lon/lat window `[9, 53, 11, 54]`. -/
def queryW : Query := ⟨⟨9, 53, 11, 54⟩, 0, 100, []⟩

/-- A catalog item with valid metadata bounding box. -/
def tileValid : Tile :=
  { href := "itemValid"
    crs := ⟨32632, false⟩
    bounds := ⟨0, 0, 100000, 100000⟩
    res := 10
    time := 10
    offI := 0
    offJ := 0
    bands := [("B02", [[some 3]])]
    metaBBox := ⟨some 9, some 53, some 11, some 54⟩
    props := [] }

/-- A catalog item whose metadata bounding box has a NaN coordinate and
zero area. -/
def tileInvalid : Tile :=
  { href := "itemInvalid"
    crs := ⟨32632, false⟩
    bounds := ⟨0, 0, 100000, 100000⟩
    res := 10
    time := 10
    offI := 0
    offJ := 0
    bands := [("B02", [[some 4]])]
    metaBBox := ⟨none, some 53, some 9, some 53⟩
    props := [] }

/-- Two overlapping sample tiles for the mosaicking examples: `tileA` is
nodata at pixel `(0, 0)`, `tileB` holds a value there. -/
def tileA : Tile :=
  { href := "tileA"
    crs := ⟨32632, false⟩
    bounds := ⟨0, 0, 20, 20⟩
    res := 10
    time := 5
    offI := 0
    offJ := 0
    bands := [("B02", [[none, some 11], [some 12, some 13]])]
    metaBBox := ⟨some 9, some 53, some 11, some 54⟩
    props := [] }

/-- See `tileA`. -/
def tileB : Tile :=
  { href := "tileB"
    crs := ⟨32632, false⟩
    bounds := ⟨0, 0, 20, 20⟩
    res := 10
    time := 5
    offI := 0
    offJ := 0
    bands := [("B02", [[some 21, some 22], [some 23, some 24]])]
    metaBBox := ⟨some 9, some 53, some 11, some 54⟩
    props := [] }

/-- The Canonical Grid of the end-to-end sample request `requestW`. -/
def gridC : CanonicalGrid := ⟨⟨32632, false⟩, 0, 0, 1, 2, 2⟩

/-- The end-to-end sample request: explicit bbox mode on a 2×2 target
grid in the projected CRS 32632. -/
def requestW : GridRequest := .bboxMode ⟨0, 0, 2, 2⟩ ⟨32632, false⟩ 1 .meter

/-- The catalog tile of the end-to-end sample run. -/
def tileC : Tile :=
  { href := "tileC"
    crs := ⟨32632, false⟩
    bounds := ⟨0, 0, 2, 2⟩
    res := 1
    time := 5
    offI := 0
    offJ := 0
    bands := [("B02", [[some 7, some 8], [some 9, some 10]])]
    metaBBox := ⟨some 9, some 53, some 11, some 54⟩
    props := [] }

/-- The cube produced by the end-to-end sample run. -/
def cubeC : Cube :=
  ⟨gridC, [⟨gridC, 5, "B02", "crs", ["y", "x"], .float32,
    [[some 7, some 8], [some 9, some 10]]⟩]⟩

/-- An aligned frame whose grid does not match `gridC`. -/
def frameBadC : AlignedFrame :=
  ⟨⟨⟨32633, false⟩, 0, 0, 1, 2, 2⟩, 5, "B02", "crs", ["y", "x"], .float32, []⟩

/-- Two aligned frames on `gridC` with distinct ascending timestamps,
and a third duplicating the first timestamp. -/
def frameT1 : AlignedFrame :=
  ⟨gridC, 1, "B02", "crs", ["y", "x"], .float32, [[some 1, some 2], [some 3, some 4]]⟩

/-- See `frameT1`. -/
def frameT2 : AlignedFrame :=
  ⟨gridC, 2, "B02", "crs", ["y", "x"], .float32, [[some 5, some 6], [some 7, some 8]]⟩

/-- See `frameT1`. -/
def frameT1dup : AlignedFrame :=
  ⟨gridC, 1, "B02", "crs", ["y", "x"], .float32, [[some 9, none], [none, some 9]]⟩

/-! Theorems. -/

theorem ceilSubDiv_eq_ceil (a b r : ℚ) (hr : 0 < r) :
    ceilSubDiv a b r = Int.ceil ((a - b) / r) := by
  have hda : ((a.den : ℚ)) ≠ 0 := Nat.cast_ne_zero.mpr a.den_nz
  have hdb : ((b.den : ℚ)) ≠ 0 := Nat.cast_ne_zero.mpr b.den_nz
  have hdr : ((r.den : ℚ)) ≠ 0 := Nat.cast_ne_zero.mpr r.den_nz
  have hrnum : 0 < r.num := Rat.num_pos.mpr hr
  have hr0 : r ≠ 0 := ne_of_gt hr
  set n : Int := (a.num * (b.den : Int) - b.num * (a.den : Int)) * (r.den : Int) with hn
  set d : Int := (a.den : Int) * (b.den : Int) * r.num with hd
  have hdpos : 0 < d := by
    apply mul_pos (mul_pos _ _) hrnum
    · exact Int.natCast_pos.mpr a.pos
    · exact Int.natCast_pos.mpr b.pos
  have key : (a - b) / r = (n : ℚ) / (d : ℚ) := by
    have ha' : (a.num : ℚ) / (a.den : ℚ) = a := Rat.num_div_den a
    have hb' : (b.num : ℚ) / (b.den : ℚ) = b := Rat.num_div_den b
    have hr' : (r.num : ℚ) / (r.den : ℚ) = r := Rat.num_div_den r
    have hrnum' : ((r.num : ℚ)) ≠ 0 := by
      exact_mod_cast Int.ne_of_gt hrnum
    have hd' : ((d : ℚ)) ≠ 0 := by
      exact_mod_cast Int.ne_of_gt hdpos
    rw [← ha', ← hb', ← hr', hn, hd]
    push_cast
    field_simp
    ring
  rw [key]
  have hmnat : ∃ m : ℕ, (m : ℤ) = d := ⟨d.toNat, Int.toNat_of_nonneg hdpos.le⟩
  obtain ⟨m, hm⟩ := hmnat
  have hceil : Int.ceil ((n : ℚ) / (d : ℚ)) = -((-n) / d) := by
    have : ((n : ℚ) / (d : ℚ)) = -(((-n : ℤ) : ℚ) / (d : ℚ)) := by
      push_cast
      ring
    rw [this, Int.ceil_neg]
    have hcast : ((d : ℚ)) = ((m : ℕ) : ℚ) := by
      rw [← hm]
      push_cast
      ring
    rw [hcast, Rat.floor_intCast_div_natCast, hm]
  rw [hceil]
  rfl

/-- C2: for all valid inputs (bbox, crs, spatial_res), `resolve_grid`
returns a Canonical Grid whose affine transform maps pixel `(0, 0)` to
the bbox origin and whose width and height are the smallest positive
integers such that the grid at the given resolution covers the bbox. -/
theorem resolve_grid_minimal_cover (bbox : BBox) (crs : CRS) (spatial_res : ℚ)
    (u : ResUnit) (tiles : List Tile)
    (hx : bbox.xmin < bbox.xmax) (hy : bbox.ymin < bbox.ymax)
    (hr : 0 < spatial_res) (hu : resUnitConsistent crs u = true) :
    resolve_grid (.bboxMode bbox crs spatial_res u) tiles =
      .ok (resolveGridBBox bbox crs spatial_res) ∧
    (resolveGridBBox bbox crs spatial_res).pixelToCrs 0 0 = (bbox.xmin, bbox.ymin) ∧
    0 < (resolveGridBBox bbox crs spatial_res).width ∧
    bbox.xmax - bbox.xmin ≤
      ((resolveGridBBox bbox crs spatial_res).width : ℚ) * spatial_res ∧
    (∀ m : ℤ, bbox.xmax - bbox.xmin ≤ (m : ℚ) * spatial_res →
      (resolveGridBBox bbox crs spatial_res).width ≤ m) ∧
    0 < (resolveGridBBox bbox crs spatial_res).height ∧
    bbox.ymax - bbox.ymin ≤
      ((resolveGridBBox bbox crs spatial_res).height : ℚ) * spatial_res ∧
    (∀ m : ℤ, bbox.ymax - bbox.ymin ≤ (m : ℚ) * spatial_res →
      (resolveGridBBox bbox crs spatial_res).height ≤ m) := by
  have hwidth : (resolveGridBBox bbox crs spatial_res).width =
      Int.ceil ((bbox.xmax - bbox.xmin) / spatial_res) :=
    ceilSubDiv_eq_ceil _ _ _ hr
  have hheight : (resolveGridBBox bbox crs spatial_res).height =
      Int.ceil ((bbox.ymax - bbox.ymin) / spatial_res) :=
    ceilSubDiv_eq_ceil _ _ _ hr
  refine ⟨?_, ?_, ?_, ?_, ?_, ?_, ?_, ?_⟩
  · simp only [resolve_grid, validateRequest]
    rw [if_pos ⟨hx, hy, hr, hu⟩]
    rfl
  · simp [CanonicalGrid.pixelToCrs, resolveGridBBox]
  · rw [hwidth]
    exact Int.ceil_pos.mpr (div_pos (sub_pos.mpr hx) hr)
  · rw [hwidth]
    exact (div_le_iff₀ hr).mp (Int.le_ceil _)
  · intro m hm
    rw [hwidth]
    exact Int.ceil_le.mpr ((div_le_iff₀ hr).mpr hm)
  · rw [hheight]
    exact Int.ceil_pos.mpr (div_pos (sub_pos.mpr hy) hr)
  · rw [hheight]
    exact (div_le_iff₀ hr).mp (Int.le_ceil _)
  · intro m hm
    rw [hheight]
    exact Int.ceil_le.mpr ((div_le_iff₀ hr).mpr hm)

/-- Witness of C2 at the sample request `requestW`. -/
theorem resolve_grid_minimal_cover_witness :
    (0 : ℚ) < 2 ∧
    resolve_grid (.bboxMode ⟨0, 0, 2, 2⟩ ⟨32632, false⟩ 1 .meter) [] =
      .ok (resolveGridBBox ⟨0, 0, 2, 2⟩ ⟨32632, false⟩ 1) :=
  ⟨by norm_num,
   (resolve_grid_minimal_cover ⟨0, 0, 2, 2⟩ ⟨32632, false⟩ 1 .meter []
     (by norm_num) (by norm_num) (by norm_num) (by rfl)).1⟩

/-- C5: single-tile-mode requests fail with `ConfigurationError` whenever
`bbox_width ≥ 10000` meters — independently of the catalog, i.e. at
request-construction time before any I/O — and succeed for
`bbox_width < 10000` with a grid restricted to the covering tile's
native CRS. -/
theorem single_tile_mode_width_limit (px py w : ℚ) (tiles : List Tile) :
    (10000 ≤ w →
      resolve_grid (.pointMode px py w) tiles = .error .configurationError)
    ∧ (w < 10000 → ∀ t : Tile,
        tiles.find? (fun t' => coversPoint t' px py) = some t →
        resolve_grid (.pointMode px py w) tiles = .ok (singleTileGrid t px py w)
        ∧ (singleTileGrid t px py w).crs = t.crs) := by
  constructor
  · intro h
    simp only [resolve_grid, validateRequest]
    rw [if_neg (not_lt.mpr h)]
    rfl
  · intro h t ht
    refine ⟨?_, rfl⟩
    simp only [resolve_grid, validateRequest]
    rw [if_pos h]
    show (match tiles.find? (fun t' => coversPoint t' px py) with
      | some t => Except.ok (singleTileGrid t px py w)
      | none => Except.error PipelineError.catalogDataError) =
      Except.ok (singleTileGrid t px py w)
    rw [ht]

/-- Witness of C5 at the sample tile `tileW` and point `(10, 53)`:
`bbox_width = 12000` raises, `bbox_width = 5000` succeeds on the tile's
native CRS. -/
theorem single_tile_mode_width_limit_witness :
    resolve_grid (.pointMode 10 53 12000) [tileW] = .error .configurationError
    ∧ resolve_grid (.pointMode 10 53 5000) [tileW] =
        .ok (singleTileGrid tileW 10 53 5000)
    ∧ (singleTileGrid tileW 10 53 5000).crs = tileW.crs :=
  ⟨(single_tile_mode_width_limit 10 53 12000 [tileW]).1 (by norm_num),
   ((single_tile_mode_width_limit 10 53 5000 [tileW]).2 (by norm_num) tileW rfl).1,
   ((single_tile_mode_width_limit 10 53 5000 [tileW]).2 (by norm_num) tileW rfl).2⟩

theorem validMetaBBox_spec (m : MetaBBox) (h : validMetaBBox m = true) :
    ∃ x0 y0 x1 y1 : ℚ, m = ⟨some x0, some y0, some x1, some y1⟩ ∧
      x0 < x1 ∧ y0 < y1 ∧ -180 ≤ x0 ∧ x1 ≤ 180 ∧ -90 ≤ y0 ∧ y1 ≤ 90 := by
  obtain ⟨x0, y0, x1, y1⟩ := m
  cases x0 <;> cases y0 <;> cases x1 <;> cases y1 <;>
    simp_all [validMetaBBox]
  exact ⟨_, _, _, _, ⟨rfl, rfl, rfl, rfl⟩, h⟩

/-- C3: no tile whose metadata bounding box is degenerate or out of
range (zero-area, NaN coordinates, or outside the valid lon/lat extent)
ever appears in `locate`'s output, and every filter predicate holds of
every yielded tile. -/
theorem locate_excludes_invalid (q : Query) (catalog : List Tile) (t : Tile)
    (ht : t ∈ locate q catalog) :
    validMetaBBox t.metaBBox = true ∧
    (∃ x0 y0 x1 y1 : ℚ, t.metaBBox = ⟨some x0, some y0, some x1, some y1⟩ ∧
      x0 < x1 ∧ y0 < y1 ∧ -180 ≤ x0 ∧ x1 ≤ 180 ∧ -90 ≤ y0 ∧ y1 ≤ 90) ∧
    intersectsQuery q t.metaBBox = true ∧
    inTimeRange q t = true ∧
    matchesFilters q t = true := by
  have hp : locatePred q t = true := List.of_mem_filter ht
  simp only [locatePred, Bool.and_eq_true] at hp
  exact ⟨hp.1.1.1, validMetaBBox_spec _ hp.1.1.1, hp.1.1.2, hp.1.2, hp.2⟩

/-- Witness of C3: in a catalog holding a valid and an invalid item, the
valid item is located and its metadata bbox passes the validity filter. -/
theorem locate_excludes_invalid_witness :
    tileValid ∈ locate queryW [tileValid, tileInvalid] ∧
    validMetaBBox tileValid.metaBBox = true :=
  ⟨by decide,
   (locate_excludes_invalid queryW [tileValid, tileInvalid] tileValid (by decide)).1⟩

theorem lookupNode_consistent {α : Type} (compute : Nat → α)
    (l : List (Nat × α)) (h : ∀ p ∈ l, p.2 = compute p.1) (n : Nat) (v : α)
    (hl : lookupNode n l = some v) : v = compute n := by
  induction l with
  | nil => simp [lookupNode] at hl
  | cons p rest ih =>
      obtain ⟨k, w⟩ := p
      by_cases hn : n = k
      · subst hn
        simp only [lookupNode, eq_self_iff_true, if_true, Option.some.injEq] at hl
        rw [← hl]
        exact h (n, w) (List.mem_cons_self _ _)
      · simp only [lookupNode, if_neg hn] at hl
        exact ih (fun p hp => h p (List.mem_cons_of_mem _ hp)) hl

/-- C9: `locate` is deterministic — re-running it on an unchanged catalog
yields the same ordered sequence — and evaluating the same lazy pipeline
node twice over a consistent read cache yields the same result both
times. -/
theorem locate_rerun_deterministic :
    (∀ (q : Query) (catalog : List Tile), locate q catalog = locate q catalog)
    ∧ (∀ (α : Type) (compute : Nat → α) (n : Nat) (c : NodeCache α),
        cacheConsistent compute c →
        (evalNode compute n c).1 = compute n ∧
        (evalNode compute n (evalNode compute n c).2).1 = (evalNode compute n c).1 ∧
        cacheConsistent compute (evalNode compute n c).2) := by
  refine ⟨fun _ _ => rfl, fun α compute n c hc => ?_⟩
  unfold evalNode
  cases hl : lookupNode n c.entries with
  | some v =>
      refine ⟨lookupNode_consistent compute c.entries hc n v hl, ?_, hc⟩
      simp [hl]
  | none =>
      refine ⟨rfl, ?_, ?_⟩
      · simp [lookupNode]
      · intro p hp
        rcases List.mem_cons.mp hp with h | h
        · rw [h]
        · exact hc p h

/-- Witness of C9 at a concrete node cache. -/
theorem locate_rerun_deterministic_witness :
    (evalNode (fun _ => 7) 3 (⟨[]⟩ : NodeCache Nat)).1 = 7 :=
  (locate_rerun_deterministic.2 Nat (fun _ => 7) 3 ⟨[]⟩
    (fun p hp => absurd hp (List.not_mem_nil p))).1

/-- C1: both the pure-resampling branch and the full-reprojection branch
of `align` emit an output with identical structure — the same CRS/grid-
mapping variable name, the same dimension names, and the same dtype
promotion rule for nodata — regardless of whether the frame's native CRS
equals the canonical grid's CRS. -/
theorem align_branches_identical (f : ZoneFrame) (g : CanonicalGrid) :
    (align f g).crsVarName = crs_var_name ∧
    (align f g).dims = ["y", "x"] ∧
    (align f g).dtype = promoteForNodata f.dtype ∧
    (align f g).crsVarName = (normalizeCrsMeta (resampleToGrid f g)).crsVarName ∧
    (align f g).crsVarName = (normalizeCrsMeta (reprojectToGrid f g)).crsVarName := by
  by_cases h : f.crs = g.crs <;>
    simp [align, h, normalizeCrsMeta, resampleToGrid, reprojectToGrid]

theorem hasDupTimes_eq_false_iff (ts : List Int) :
    hasDupTimes ts = false ↔ ts.Pairwise (· ≠ ·) := by
  induction ts with
  | nil => simp [hasDupTimes]
  | cons t ts ih =>
      simp only [hasDupTimes, Bool.or_eq_false_iff, List.pairwise_cons, ih,
        List.any_eq_false, decide_eq_true_eq]
      constructor
      · rintro ⟨h1, h2⟩
        exact ⟨fun a ha => Ne.symm (h1 a ha), h2⟩
      · rintro ⟨h1, h2⟩
        exact ⟨fun a ha => Ne.symm (h1 a ha), h2⟩

theorem sortByTime_sorted_eq (frames : List AlignedFrame)
    (h : List.Chain' (fun a b => a.time ≤ b.time) frames) :
    sortByTime frames = frames := by
  induction frames with
  | nil => rfl
  | cons f rest ih =>
      cases rest with
      | nil => rfl
      | cons f2 rest2 =>
          have h1 : f.time ≤ f2.time := (List.chain'_cons.mp h).1
          have h2 := (List.chain'_cons.mp h).2
          show insertByTime f (sortByTime (f2 :: rest2)) = f :: f2 :: rest2
          rw [ih h2]
          show (if f.time ≤ f2.time then f :: f2 :: rest2
            else f2 :: insertByTime f rest2) = f :: f2 :: rest2
          rw [if_pos h1]

/-- C4: stacking frames on the canonical grid with strictly increasing
distinct timestamps yields a cube whose time dimension lists those
timestamps in ascending order; any input containing two frames with the
same timestamp key fails with `DataConsistencyError`. -/
theorem stack_time_axis (g : CanonicalGrid) (frames : List AlignedFrame) :
    ((∀ f ∈ frames, f.grid = g) →
      List.Chain' (· < ·) (frames.map AlignedFrame.time) →
      stack frames g = .ok ⟨g, frames⟩ ∧
      (Cube.mk g frames).times = frames.map AlignedFrame.time ∧
      (Cube.mk g frames).times.length = frames.length ∧
      List.Chain' (· < ·) (Cube.mk g frames).times)
    ∧ (¬ (frames.map AlignedFrame.time).Pairwise (· ≠ ·) →
      stack frames g = .error .dataConsistencyError) := by
  constructor
  · intro hg hchain
    have hany : frames.any (fun f => decide (f.grid ≠ g)) = false := by
      rw [List.any_eq_false]
      intro x hx
      simp [hg x hx]
    have hpair : (frames.map AlignedFrame.time).Pairwise (· ≠ ·) :=
      (List.chain'_iff_pairwise.mp hchain).imp ne_of_lt
    have hdup : hasDupTimes (frames.map AlignedFrame.time) = false :=
      (hasDupTimes_eq_false_iff _).mpr hpair
    have hsorted : List.Chain' (fun a b => a.time ≤ b.time) frames := by
      have hm := (List.chain'_map AlignedFrame.time).mp hchain
      exact hm.imp (fun a b hab => le_of_lt hab)
    refine ⟨?_, rfl, by simp [Cube.times], hchain⟩
    simp only [stack, hany, hdup, Bool.false_eq_true, if_false]
    rw [sortByTime_sorted_eq frames hsorted]
  · intro hdup
    have hdup' : hasDupTimes (frames.map AlignedFrame.time) = true := by
      cases hv : hasDupTimes (frames.map AlignedFrame.time) with
      | true => rfl
      | false => exact absurd ((hasDupTimes_eq_false_iff _).mp hv) hdup
    by_cases hany : frames.any (fun f => decide (f.grid ≠ g)) = true
    · simp only [stack, hany, if_true]
    · simp only [stack, Bool.not_eq_true] at hany
      simp only [stack, hany, Bool.false_eq_true, if_false, hdup', if_true]

/-- Witness of C4: two distinct ascending timestamps stack into a cube;
a duplicated timestamp raises a data consistency error. -/
theorem stack_time_axis_witness :
    stack [frameT1, frameT2] gridC = .ok ⟨gridC, [frameT1, frameT2]⟩ ∧
    stack [frameT1, frameT1dup] gridC = .error .dataConsistencyError :=
  ⟨((stack_time_axis gridC [frameT1, frameT2]).1 (by decide)
     (by simp [frameT1, frameT2, List.chain'_cons])).1,
   (stack_time_axis gridC [frameT1, frameT1dup]).2
     (by simp [frameT1, frameT1dup, List.pairwise_cons])⟩

/-- C7: mosaicking a single-tile zone group returns that tile's data
unchanged at every pixel. -/
theorem mosaic_singleton_identity (t : Tile) (b : String) (i j : Nat) :
    mosaicPixel [t] b i j = tilePixel t b i j := by
  cases h : tilePixel t b i j <;> simp [mosaicPixel, firstSome, h]

theorem firstSome_eq_none_iff (l : List (Option Int)) :
    firstSome l = none ↔ ∀ x ∈ l, x = none := by
  induction l with
  | nil => simp [firstSome]
  | cons x rest ih =>
      cases x with
      | none => simp [firstSome, ih]
      | some v => simp [firstSome]

theorem firstSome_eq_some_first (l : List (Option Int)) (v : Int)
    (h : firstSome l = some v) :
    ∃ k, ∃ hk : k < l.length, l.get ⟨k, hk⟩ = some v ∧
      ∀ k', (hk' : k' < l.length) → k' < k → l.get ⟨k', hk'⟩ = none := by
  induction l with
  | nil => simp [firstSome] at h
  | cons x rest ih =>
      cases x with
      | some w =>
          have hw : w = v := by simpa [firstSome] using h
          exact ⟨0, Nat.succ_pos _, by simp [hw],
            fun k' hk' hlt => absurd hlt (Nat.not_lt_zero _)⟩
      | none =>
          have h' : firstSome rest = some v := by simpa [firstSome] using h
          obtain ⟨k, hk, hget, hbefore⟩ := ih h'
          refine ⟨k + 1, Nat.succ_lt_succ hk, by simpa using hget, ?_⟩
          intro k' hk' hlt
          cases k' with
          | zero => rfl
          | succ k2 =>
              have hk2 : k2 < rest.length := Nat.lt_of_succ_lt_succ hk'
              have : rest.get ⟨k2, hk2⟩ = none :=
                hbefore k2 hk2 (Nat.lt_of_succ_lt_succ hlt)
              simpa using this

/-- C6: for every pixel of a composited frame, the output is nodata if
and only if all contributing tiles are nodata there; otherwise the value
of exactly one contributing tile is selected — the first tile in catalog
order holding a non-nodata value — and a tile missing the requested band
contributes nodata without making the mosaic fail. -/
theorem mosaic_overlap_policy (tiles : List Tile) (b : String) (i j : Nat) :
    (mosaicPixel tiles b i j = none ↔ ∀ t ∈ tiles, tilePixel t b i j = none) ∧
    (∀ v : Int, mosaicPixel tiles b i j = some v →
      ∃ k, ∃ hk : k < tiles.length,
        tilePixel (tiles.get ⟨k, hk⟩) b i j = some v ∧
        ∀ k', (hk' : k' < tiles.length) → k' < k →
          tilePixel (tiles.get ⟨k', hk'⟩) b i j = none) ∧
    (∀ t ∈ tiles, t.bands.lookup b = none → tilePixel t b i j = none) := by
  refine ⟨?_, ?_, ?_⟩
  · rw [mosaicPixel, firstSome_eq_none_iff]
    constructor
    · intro h t ht
      exact h (tilePixel t b i j) (List.mem_map_of_mem _ ht)
    · intro h x hx
      obtain ⟨t, ht, rfl⟩ := List.mem_map.mp hx
      exact h t ht
  · intro v hv
    rw [mosaicPixel] at hv
    obtain ⟨k, hk, hget, hbefore⟩ := firstSome_eq_some_first _ v hv
    rw [List.length_map] at hk
    refine ⟨k, hk, ?_, ?_⟩
    · simpa using hget
    · intro k' hk' hlt
      have hb2 := hbefore k' (by rwa [List.length_map]) hlt
      simpa using hb2
  · intro t _ hb
    by_cases hoff : t.offI ≤ i ∧ t.offJ ≤ j <;> simp [tilePixel, hoff, hb]

/-- Witness of C6 on two overlapping sample tiles: the nodata
equivalence at pixel `(0, 0)`, where `tileA` is nodata and `tileB` is
not. -/
theorem mosaic_overlap_policy_witness :
    mosaicPixel [tileA, tileB] "B02" 0 0 = none ↔
      ∀ t ∈ [tileA, tileB], tilePixel t "B02" 0 0 = none :=
  (mosaic_overlap_policy [tileA, tileB] "B02" 0 0).1

theorem stack_ok_grid (frames : List AlignedFrame) (g : CanonicalGrid)
    (c : Cube) (h : stack frames g = .ok c) : c.grid = g := by
  unfold stack at h
  split at h
  · exact absurd h (by simp)
  · split at h
    · exact absurd h (by simp)
    · cases h
      rfl

/-- C8: the Canonical Grid is never mutated downstream — every output of
the Reprojector/Resampler carries exactly the grid it was aligned to, a
frame whose grid mismatches the Canonical Grid makes the Cube Stacker
fail with the fatal `DataConsistencyError`, and a successful end-to-end
pipeline run yields a cube whose grid is exactly the one `resolve_grid`
computed from the request. -/
theorem canonical_grid_never_mutated :
    (∀ (f : ZoneFrame) (g : CanonicalGrid), (align f g).grid = g) ∧
    (∀ (frames : List AlignedFrame) (g : CanonicalGrid) (f : AlignedFrame),
      f ∈ frames → f.grid ≠ g →
      stack frames g = .error .dataConsistencyError) ∧
    (∀ (req : GridRequest) (q : Query) (catalog : List Tile) (b : String)
      (dt : DType) (c : Cube),
      run_pipeline req q catalog b dt = .ok c →
      resolve_grid req catalog = .ok c.grid) := by
  refine ⟨?_, ?_, ?_⟩
  · intro f g
    by_cases h : f.crs = g.crs <;>
      simp [align, h, normalizeCrsMeta, resampleToGrid, reprojectToGrid]
  · intro frames g f hf hne
    have hany : frames.any (fun f => decide (f.grid ≠ g)) = true :=
      List.any_eq_true.mpr ⟨f, hf, by simpa using hne⟩
    simp only [stack, hany, if_true]
  · intro req q catalog b dt c h
    unfold run_pipeline at h
    cases hres : resolve_grid req catalog with
    | error e =>
        rw [hres] at h
        exact Except.noConfusion h
    | ok g =>
        rw [hres] at h
        rw [stack_ok_grid _ _ _ h]

/-- Witness of C8: a mismatching frame makes `stack` fail, and the
sample end-to-end run produces the cube of the grid resolved from the
request. -/
theorem canonical_grid_never_mutated_witness :
    stack [frameBadC] gridC = .error .dataConsistencyError ∧
    resolve_grid requestW [tileC] = .ok cubeC.grid :=
  ⟨canonical_grid_never_mutated.2.1 [frameBadC] gridC frameBadC
    (List.mem_cons_self _ _) (by decide),
   canonical_grid_never_mutated.2.2 requestW queryW [tileC] "B02" .uint16 cubeC rfl⟩

/-- C10: a single-item open through the `stac-cdse` store with the
optional `data_type` argument unassigned returns the item as an
`xarray.Dataset`, not a multi-resolution dataset. -/
theorem open_data_cdse_default_dataset (dataId : String) :
    open_data_cdse dataId none = .dataset := rfl

end XcubeStac
